import Mathlib

/-!
Verification development for the jasmin SMS gateway.

The repository ships the daemon wiring (`jasmin/bin/jasmind.py`,
`jasmin/bin/interceptord.py`); the routing, connector-management and
delivery-thrower core lives in modules that the daemon imports
(`jasmin.routing.router`, `jasmin.routing.throwers`, `jasmin.managers.clients`)
whose sources are not part of this snapshot.  Those parts are modelled from
the specification; the daemon code is embedded from the Python source.
-/

namespace Jasmin

/-! ## Routing data model -/

/-- Connector identity: other components reference a connector only by id. -/
abbrev Cid := String

/-- Modelled from the spec: a `Message` record, restricted to the attributes
the routing filters of the claims inspect (source address, destination
address).  The full record also carries id, direction, content, encoding,
priority and validity window, none of which the modelled filters read. -/
structure Msg where
  sourceAddr : String
  destAddr : String
  deriving DecidableEq

/-- Modelled from the spec: a `Filter` is a predicate descriptor or a boolean
combination of filters (`jasmin.routing.Filters` is not in the snapshot).
`always` is the always-true filter of a default route; `destStarts p` is the
destination-prefix test used by the spec scenario. -/
inductive Filt where
  | always : Filt
  | destStarts : String → Filt
  | fAnd : Filt → Filt → Filt
  | fOr : Filt → Filt → Filt
  | fNot : Filt → Filt
  deriving DecidableEq

/-- Character-level test that the first list starts with the second. -/
def listStarts : List Char → List Char → Bool
  | _, [] => true
  | [], _ :: _ => false
  | a :: as, b :: bs => a == b && listStarts as bs

/-- Destination addresses are written with a leading plus sign
(`"+15551234"`) while the spec scenario states that destination
number-plan digits are matched (`destination-prefix "1"` matches
`"+15551234"`), so a leading plus sign is stripped before the digit test. -/
def stripPlus : List Char → List Char
  | '+' :: rest => rest
  | l => l

/-- Modelled from the spec: filter evaluation is pure and side-effect free;
`&&`/`||` short-circuit. -/
def evalFilt : Filt → Msg → Bool
  | .always, _ => true
  | .destStarts p, m => listStarts (stripPlus m.destAddr.toList) p.toList
  | .fAnd a b, m => evalFilt a m && evalFilt b m
  | .fOr a b, m => evalFilt a m || evalFilt b m
  | .fNot a, m => ! evalFilt a m

/-- Modelled from the spec: a route target is a tagged variant — a single
connector identity (MO path) or a weighted set of connector identities
(MT path). -/
inductive Target where
  | single : Cid → Target
  | weighted : List (Cid × Nat) → Target
  deriving DecidableEq

/-- Modelled from the spec: a `Route` is an ordered rule: priority (lower
evaluates first), a filter, and a target spec. -/
structure Route where
  priority : Nat
  filt : Filt
  target : Target
  deriving DecidableEq

/-- Modelled from the spec: a `RoutingTable` snapshot is an ordered sequence
of routes for one traffic direction. -/
structure RTable where
  routes : List Route
  deriving DecidableEq

/-- The priority order on routes: lower priority rank evaluates first. -/
def prioLE (a b : Route) : Prop := a.priority ≤ b.priority

instance : DecidableRel prioLE := fun a b => Nat.decLe a.priority b.priority

instance : IsTotal Route prioLE := ⟨fun a b => Nat.le_total a.priority b.priority⟩

instance : IsTrans Route prioLE := ⟨fun _ _ _ => Nat.le_trans⟩

/-- Route sequences are evaluated in ascending priority order. -/
def sortByPrio (l : List Route) : List Route :=
  l.insertionSort prioLE

/-- First route of the sequence whose filter evaluates true on the message. -/
def firstMatch (m : Msg) : List Route → Option Route
  | [] => none
  | r :: rs => if evalFilt r.filt m then some r else firstMatch m rs

/-- Modelled from the spec: `match(message, direction)` at route level —
iterate the direction's route sequence in priority order and return the
first route whose filter evaluates true on the message. -/
def RTable.matchRoute (t : RTable) (m : Msg) : Option Route :=
  firstMatch m (sortByPrio t.routes)

/-- The currently started connectors of a target, with selection weights
(a single-connector target behaves as one connector of weight 1). -/
def startedConns (st : Cid → Bool) : Target → List (Cid × Nat)
  | .single c => if st c then [(c, 1)] else []
  | .weighted cs => cs.filter (fun cw => st cw.1)

/-- Walk a weighted connector list, consuming `idx` units of weight. -/
def goPick : List (Cid × Nat) → Nat → Option Cid
  | [], _ => none
  | (c, w) :: rest, idx => if idx < w then some c else goPick rest (idx - w)

/-- Modelled from the spec: weighted-random selection among connectors; the
random draw is made explicit as a `seed`, reduced modulo the total weight. -/
def pickWeighted (cs : List (Cid × Nat)) (seed : Nat) : Option Cid :=
  let total := (cs.map Prod.snd).sum
  if total = 0 then none else goPick cs (seed % total)

/-- A target has at least one eligible connector: some connector of the
target is currently started and carries positive selection weight. -/
def Target.hasStarted (tg : Target) (st : Cid → Bool) : Bool :=
  match tg with
  | .single c => st c
  | .weighted cs => cs.any (fun cw => st cw.1 && decide (0 < cw.2))

/-- Modelled from the spec: full `match` over a route sequence — for each
route in order, evaluate its filter; on a match, select weighted-randomly
among the target's started connectors; if none of the target's connectors
are started, fall through to subsequent lower-priority routes; if no route
yields a started connector the result is `none` (NoRoute). -/
def matchConnList (st : Cid → Bool) (m : Msg) (seed : Nat) : List Route → Option Cid
  | [] => none
  | r :: rs =>
    if evalFilt r.filt m then
      match pickWeighted (startedConns st r.target) seed with
      | some c => some c
      | none => matchConnList st m seed rs
    else matchConnList st m seed rs

/-- Modelled from the spec: `match(message, direction) -> target | NoRoute`
down to the selected connector, over the priority-sorted table. -/
def RTable.matchConn (t : RTable) (st : Cid → Bool) (m : Msg) (seed : Nat) : Option Cid :=
  matchConnList st m seed (sortByPrio t.routes)

/-- Seed-independent part of the full match: the first route in priority
order whose filter is true and whose target has a started connector. -/
def matchFullList (st : Cid → Bool) (m : Msg) : List Route → Option Route
  | [] => none
  | r :: rs =>
    if evalFilt r.filt m && r.target.hasStarted st then some r
    else matchFullList st m rs

/-- The route selected by the full match, before the intra-route draw. -/
def RTable.matchFull (t : RTable) (st : Cid → Bool) (m : Msg) : Option Route :=
  matchFullList st m (sortByPrio t.routes)

/-! ## Scenario fixtures from the spec -/

/-- Spec scenario route: priority 1, destination-prefix "1", target connectorA. -/
def routeA : Route :=
  { priority := 1, filt := .destStarts "1", target := .single "connectorA" }

/-- Spec scenario default route: always-true filter, target connectorB. -/
def routeB : Route :=
  { priority := 2, filt := .always, target := .single "connectorB" }

/-- Spec scenario routing table. -/
def scenTable : RTable := ⟨[routeA, routeB]⟩

/-- Spec scenario message to "+15551234". -/
def msgUS : Msg := { sourceAddr := "src", destAddr := "+15551234" }

/-- Spec scenario message to a "+44..." destination. -/
def msgUK : Msg := { sourceAddr := "src", destAddr := "+442071234567" }

/-- All connectors started (scenario helper). -/
def allUp : Cid → Bool := fun _ => true

/-- MT table with one always-true route over two equally weighted connectors. -/
def tblW : RTable :=
  ⟨[{ priority := 0, filt := .always, target := .weighted [("smscA", 1), ("smscB", 1)] }]⟩

/-! ## Routing lemmas -/

theorem sum_pos_of_mem {l : List Nat} {x : Nat} (h : x ∈ l) (hx : 0 < x) :
    0 < l.sum := by
  induction l with
  | nil => simp at h
  | cons y ys ih =>
    rcases List.mem_cons.mp h with rfl | h
    · simp; omega
    · have := ih h
      simp
      omega

theorem sum_zero_of_all {l : List Nat} (h : ∀ x ∈ l, x = 0) : l.sum = 0 := by
  induction l with
  | nil => rfl
  | cons y ys ih =>
    have hy := h y (List.mem_cons_self y ys)
    have := ih fun x hx => h x (List.mem_cons_of_mem y hx)
    simp [hy, this]

theorem firstMatch_spec {m : Msg} {r : Route} :
    ∀ {l : List Route}, List.Sorted prioLE l → firstMatch m l = some r →
      r ∈ l ∧ evalFilt r.filt m = true ∧
        ∀ r' ∈ l, r'.priority < r.priority → evalFilt r'.filt m = false := by
  intro l
  induction l with
  | nil => intro _ h; simp [firstMatch] at h
  | cons x xs ih =>
    intro hs h
    cases hx : evalFilt x.filt m with
    | true =>
      rw [firstMatch, if_pos hx] at h
      obtain rfl : x = r := by injection h
      refine ⟨List.mem_cons_self x xs, hx, ?_⟩
      intro r' hr' hlt
      rcases List.mem_cons.mp hr' with rfl | hr'
      · exact absurd hlt (Nat.lt_irrefl _)
      · exact absurd hlt (Nat.not_lt.mpr (List.rel_of_sorted_cons hs r' hr'))
    | false =>
      rw [firstMatch, if_neg (by simp [hx])] at h
      obtain ⟨h1, h2, h3⟩ := ih hs.of_cons h
      refine ⟨List.mem_cons_of_mem x h1, h2, ?_⟩
      intro r' hr' hlt
      rcases List.mem_cons.mp hr' with rfl | hr'
      · exact hx
      · exact h3 r' hr' hlt

theorem goPick_isSome : ∀ (cs : List (Cid × Nat)) (idx : Nat),
    idx < (cs.map Prod.snd).sum → (goPick cs idx).isSome = true := by
  intro cs
  induction cs with
  | nil => intro idx h; simp at h
  | cons cw rest ih =>
    intro idx h
    obtain ⟨c, w⟩ := cw
    by_cases hw : idx < w
    · simp [goPick, hw]
    · simp only [List.map_cons, List.sum_cons] at h
      have h' : idx - w < (rest.map Prod.snd).sum := by omega
      simp only [goPick, if_neg hw]
      exact ih _ h'

theorem pickWeighted_isSome {cs : List (Cid × Nat)} {seed : Nat}
    (h : 0 < (cs.map Prod.snd).sum) : (pickWeighted cs seed).isSome = true := by
  rw [pickWeighted, if_neg (by omega)]
  exact goPick_isSome cs _ (Nat.mod_lt _ h)

theorem startedConns_sum_pos {st : Cid → Bool} {tg : Target}
    (h : tg.hasStarted st = true) : 0 < ((startedConns st tg).map Prod.snd).sum := by
  cases tg with
  | single c =>
    simp only [Target.hasStarted] at h
    simp [startedConns, h]
  | weighted cs =>
    simp only [Target.hasStarted, List.any_eq_true, Bool.and_eq_true,
      decide_eq_true_eq] at h
    obtain ⟨cw, hmem, hst, hw⟩ := h
    have hmem2 : cw ∈ cs.filter (fun cw => st cw.1) := List.mem_filter.mpr ⟨hmem, hst⟩
    exact sum_pos_of_mem (List.mem_map_of_mem Prod.snd hmem2) hw

theorem startedConns_sum_zero {st : Cid → Bool} {tg : Target}
    (h : tg.hasStarted st = false) : ((startedConns st tg).map Prod.snd).sum = 0 := by
  cases tg with
  | single c =>
    simp only [Target.hasStarted] at h
    simp [startedConns, h]
  | weighted cs =>
    simp only [Target.hasStarted, List.any_eq_false, Bool.and_eq_true,
      decide_eq_true_eq, not_and] at h
    apply sum_zero_of_all
    intro x hx
    obtain ⟨cw, hcw, rfl⟩ := List.mem_map.mp hx
    obtain ⟨hcs, hst⟩ := List.mem_filter.mp hcw
    have hz := h cw hcs
    simp [hst] at hz
    omega

theorem pick_started_isSome (st : Cid → Bool) (tg : Target) (seed : Nat) :
    (pickWeighted (startedConns st tg) seed).isSome = tg.hasStarted st := by
  cases hs : tg.hasStarted st with
  | true => exact pickWeighted_isSome (startedConns_sum_pos hs)
  | false =>
    have h0 := startedConns_sum_zero hs
    simp [pickWeighted, h0]

theorem pick_started_none {st : Cid → Bool} {tg : Target} {seed : Nat}
    (h : tg.hasStarted st = false) :
    pickWeighted (startedConns st tg) seed = none := by
  have := pick_started_isSome st tg seed
  rw [h] at this
  exact Option.not_isSome_iff_eq_none.mp (by simp [this])

theorem matchConnList_eq (st : Cid → Bool) (m : Msg) (seed : Nat) :
    ∀ l : List Route, matchConnList st m seed l
      = (matchFullList st m l).bind
          (fun r => pickWeighted (startedConns st r.target) seed) := by
  intro l
  induction l with
  | nil => rfl
  | cons r rs ih =>
    cases hf : evalFilt r.filt m with
    | true =>
      cases hs : r.target.hasStarted st with
      | true =>
        have hsome : (pickWeighted (startedConns st r.target) seed).isSome = true := by
          rw [pick_started_isSome, hs]
        obtain ⟨c, hc⟩ := Option.isSome_iff_exists.mp hsome
        simp [matchConnList, matchFullList, hf, hs, hc]
      | false =>
        have hn : pickWeighted (startedConns st r.target) seed = none :=
          pick_started_none hs
        simp [matchConnList, matchFullList, hf, hs, hn, ih]
    | false =>
      simp [matchConnList, matchFullList, hf, ih]

theorem matchFullList_some {st : Cid → Bool} {m : Msg} {r' : Route} :
    ∀ {l : List Route}, matchFullList st m l = some r' →
      evalFilt r'.filt m = true ∧ r'.target.hasStarted st = true := by
  intro l
  induction l with
  | nil => intro h; simp [matchFullList] at h
  | cons x xs ih =>
    intro h
    cases hc : evalFilt x.filt m && x.target.hasStarted st with
    | true =>
      rw [matchFullList, if_pos hc] at h
      obtain rfl : x = r' := by injection h
      simp only [Bool.and_eq_true] at hc
      exact hc
    | false =>
      rw [matchFullList, if_neg (by simp [hc])] at h
      exact ih h

theorem matchFullList_isSome {st : Cid → Bool} {m : Msg} {r : Route} :
    ∀ {l : List Route}, r ∈ l → evalFilt r.filt m = true →
      r.target.hasStarted st = true → (matchFullList st m l).isSome = true := by
  intro l
  induction l with
  | nil => intro h; simp at h
  | cons x xs ih =>
    intro hmem hf hs
    rcases List.mem_cons.mp hmem with rfl | hx
    · simp [matchFullList, hf, hs]
    · cases hc : evalFilt x.filt m && x.target.hasStarted st with
      | true => simp [matchFullList, hc]
      | false =>
        rw [matchFullList, if_neg (by simp [hc])]
        exact ih hx hf hs

/-! ## Claims C1 - C3 -/

/-- Claim C1: `match` iterates the route sequence in ascending priority order
and returns the first route whose filter evaluates true on the message: any
returned route belongs to the table, its filter accepts the message, and every
table route of strictly lower priority rank rejects the message; on the spec
scenario table, a message to "+15551234" yields connectorA and a message to
"+442071234567" yields connectorB. -/
theorem c1_first_match_in_priority_order :
    (∀ (t : RTable) (m : Msg) (r : Route), t.matchRoute m = some r →
        r ∈ t.routes ∧ evalFilt r.filt m = true ∧
          ∀ r' ∈ t.routes, r'.priority < r.priority → evalFilt r'.filt m = false)
    ∧ (scenTable.matchRoute msgUS).map Route.target = some (.single "connectorA")
    ∧ (scenTable.matchRoute msgUK).map Route.target = some (.single "connectorB") := by
  refine ⟨?_, by decide, by decide⟩
  intro t m r h
  obtain ⟨h1, h2, h3⟩ := firstMatch_spec (List.sorted_insertionSort prioLE t.routes) h
  refine ⟨(List.mem_insertionSort prioLE).mp h1, h2, ?_⟩
  intro r' hr' hlt
  exact h3 r' ((List.mem_insertionSort prioLE).mpr hr') hlt

/-- Witness for C1 at the spec scenario: the route returned for the message to
"+15551234" is in the table and its filter accepts the message. -/
theorem c1_witness :
    routeA ∈ scenTable.routes ∧ evalFilt routeA.filt msgUS = true :=
  ⟨(c1_first_match_in_priority_order.1 scenTable msgUS routeA (by decide)).1,
   (c1_first_match_in_priority_order.1 scenTable msgUS routeA (by decide)).2.1⟩

/-- Claim C2: if the table contains a default route (always-true filter) and
some connector under that route's target is started, `match` returns a
connector — never NoRoute. -/
theorem c2_default_route_no_noroute :
    ∀ (t : RTable) (st : Cid → Bool) (m : Msg) (seed : Nat) (r : Route),
      r ∈ t.routes → r.filt = .always → r.target.hasStarted st = true →
      (t.matchConn st m seed).isSome = true := by
  intro t st m seed r hmem hflt hst
  rw [RTable.matchConn, matchConnList_eq]
  have hf : evalFilt r.filt m = true := by rw [hflt]; rfl
  have hfull := matchFullList_isSome ((List.mem_insertionSort prioLE).mpr hmem) hf hst
  cases hm : matchFullList st m (sortByPrio t.routes) with
  | none =>
    rw [show matchFullList st m (List.insertionSort prioLE t.routes) = none from hm] at hfull
    simp at hfull
  | some r' =>
    obtain ⟨_, hs'⟩ := matchFullList_some hm
    simp [hm, Option.bind, pick_started_isSome, hs']

/-- Witness for C2 at the spec scenario table with every connector started. -/
theorem c2_witness : (scenTable.matchConn allUp msgUK 0).isSome = true :=
  c2_default_route_no_noroute scenTable allUp msgUK 0 routeB
    (by decide) (by decide) (by decide)

/-- Claim C3 counterexample: the same table snapshot and message, matched
under two different random draws of the weighted MT selection, yield two
different connectors — so `match` down to the selected connector is not
deterministic across calls. -/
theorem c3_counterexample :
    tblW.matchConn allUp msgUS 0 = some "smscA"
    ∧ tblW.matchConn allUp msgUS 1 = some "smscB"
    ∧ tblW.matchConn allUp msgUS 0 ≠ tblW.matchConn allUp msgUS 1 := by
  exact ⟨by decide, by decide, by decide⟩

/-- Claim C3 (amended): `match` is deterministic up to the weighted random
draw: the result factors through a seed-independent matched route (the first
route in priority order whose filter accepts the message and whose target has
a started connector), the intra-route draw alone varies, and whether a
connector is returned at all is independent of the draw. -/
theorem c3_deterministic_at_route_level :
    ∀ (t : RTable) (st : Cid → Bool) (m : Msg) (s₁ s₂ : Nat),
      t.matchConn st m s₁
        = (t.matchFull st m).bind
            (fun r => pickWeighted (startedConns st r.target) s₁)
      ∧ (t.matchConn st m s₁).isSome = (t.matchConn st m s₂).isSome := by
  intro t st m s₁ s₂
  constructor
  · exact matchConnList_eq st m s₁ _
  · rw [RTable.matchConn, RTable.matchConn, matchConnList_eq, matchConnList_eq]
    cases matchFullList st m (sortByPrio t.routes) with
    | none => rfl
    | some r => simp [pick_started_isSome]

/-! ## Connector manager (modelled from the spec) -/

/-- Modelled from the spec: connector lifecycle states
`STOPPED -> CONNECTING -> BOUND -> (STOPPED | CONNECTING on failure)`
(`jasmin.managers.clients.SMPPClientManagerPB` and the SMPP client state
machine are not in the snapshot). -/
inductive ConnState where
  | stopped
  | connecting
  | bound
  deriving DecidableEq

/-- Modelled from the spec: a managed connector — lifecycle state, consecutive
bind-failure count, and its pending per-connector FIFO dispatch queue. -/
structure Conn where
  state : ConnState
  failures : Nat
  queue : List Msg
  deriving DecidableEq

/-- A freshly configured connector: STOPPED, no failures, empty queue. -/
def Conn.fresh : Conn := { state := .stopped, failures := 0, queue := [] }

/-- Modelled from the spec: `start(connectorID)` enters CONNECTING. -/
def Conn.startConn (c : Conn) : Conn := { c with state := .connecting }

/-- Modelled from the spec: a successful bind reaches BOUND and resets the
consecutive-failure counter to 0. -/
def Conn.onBindSuccess (c : Conn) : Conn := { c with state := .bound, failures := 0 }

/-- Modelled from the spec: a bind failure from CONNECTING increments the
failure counter and re-enters CONNECTING after a backoff delay. -/
def Conn.onBindFailure (c : Conn) : Conn :=
  { c with state := .connecting, failures := c.failures + 1 }

/-- Modelled from the spec: a stop always transitions to STOPPED regardless of
the current state. -/
def Conn.stopConn (c : Conn) : Conn := { c with state := .stopped }

/-- Modelled from the spec: exponential backoff — base delay doubling per
consecutive failure, capped at a configured maximum; `n` is the number of
consecutive failed binds. -/
def backoffDelay (base cap n : Nat) : Nat := min (base * 2 ^ (n - 1)) cap

/-- Delay the connector waits before its next bind attempt. -/
def Conn.nextDelay (c : Conn) (base cap : Nat) : Nat := backoffDelay base cap c.failures

/-- Modelled from the spec: the ConnectorManager owns the mapping
ConnectorID to Connector; mutation is exclusive to it. -/
structure CMgr where
  conns : List (Cid × Conn)
  deriving DecidableEq

def CMgr.lookup (mgr : CMgr) (cid : Cid) : Option Conn :=
  (mgr.conns.find? (fun p => p.1 == cid)).map Prod.snd

def CMgr.update (mgr : CMgr) (cid : Cid) (c : Conn) : CMgr :=
  ⟨mgr.conns.map (fun p => if p.1 == cid then (p.1, c) else p)⟩

/-- Lift a per-connector lifecycle transition to the manager. -/
def CMgr.applyConn (mgr : CMgr) (cid : Cid) (f : Conn → Conn) : CMgr :=
  match mgr.lookup cid with
  | none => mgr
  | some c => mgr.update cid (f c)

inductive DispatchResult where
  | enqueued
  | rejected (reason : String)
  deriving DecidableEq

/-- Modelled from the spec: `dispatch(message) -> enqueued | rejected(reason)`:
it requires the target connector to be BOUND, otherwise it rejects with
connector-unavailable and leaves the manager untouched; a BOUND connector
whose dispatch queue is at the depth cap rejects with queue-full; otherwise
the message joins the connector's FIFO dispatch queue. -/
def CMgr.dispatch (mgr : CMgr) (cap : Nat) (cid : Cid) (m : Msg) :
    CMgr × DispatchResult :=
  match mgr.lookup cid with
  | none => (mgr, .rejected "connector-unavailable")
  | some c =>
    if c.state = .bound then
      if c.queue.length < cap then
        (mgr.update cid { c with queue := c.queue ++ [m] }, .enqueued)
      else (mgr, .rejected "queue-full")
    else (mgr, .rejected "connector-unavailable")

/-- Scenario manager: the single connector connectorA, STOPPED. -/
def mgrA : CMgr := ⟨[("connectorA", Conn.fresh)]⟩

/-- Scenario manager after `start(connectorA)` succeeds and reaches BOUND. -/
def mgrA2 : CMgr :=
  (mgrA.applyConn "connectorA" Conn.startConn).applyConn "connectorA" Conn.onBindSuccess

/-! ## Delivery thrower (modelled from the spec) -/

/-- Modelled from the spec: queued-item delivery states (IN_FLIGHT is
transient within one dequeue-attempt cycle and is collapsed into the step);
`jasmin.routing.throwers` is not in the snapshot. -/
inductive ItemState where
  | pending
  | delivered
  | deadLettered (reason : String)
  deriving DecidableEq

/-- Modelled from the spec: a queued item with its state and attempt count
(timestamps are omitted: no claim reads them). -/
structure QItem where
  state : ItemState
  attempts : Nat
  deriving DecidableEq

/-- A freshly enqueued item: PENDING with zero attempts. -/
def QItem.fresh : QItem := { state := .pending, attempts := 0 }

/-- Modelled from the spec: the outcome of one Sink invocation. -/
inductive SinkResult where
  | ok
  | fail (reason : String)
  deriving DecidableEq

/-- Modelled from the spec: one dequeue-and-attempt cycle of the thrower loop:
the attempt count is incremented on dequeue and the Sink is invoked; success
reaches DELIVERED; failure returns the item to PENDING with a backoff delay,
unless the attempt count has reached `maxAttempts`, in which case the item is
DEAD_LETTERED with the failure reason attached; DELIVERED and DEAD_LETTERED
items are never attempted again. -/
def throwerStep (maxAttempts : Nat) (item : QItem) (res : SinkResult) : QItem :=
  match item.state with
  | .delivered => item
  | .deadLettered _ => item
  | .pending =>
    match res with
    | .ok => { state := .delivered, attempts := item.attempts + 1 }
    | .fail reason =>
      if item.attempts + 1 ≥ maxAttempts then
        { state := .deadLettered reason, attempts := item.attempts + 1 }
      else
        { state := .pending, attempts := item.attempts + 1 }

/-- The thrower consumption loop over a sequence of Sink outcomes. -/
def runThrower (maxAttempts : Nat) : QItem → List SinkResult → QItem
  | item, [] => item
  | item, r :: rs => runThrower maxAttempts (throwerStep maxAttempts item r) rs

/-! ## Connector-manager and thrower lemmas -/

theorem iterate_failures (c : Conn) :
    ∀ n : Nat, (Conn.onBindFailure^[n] c).failures = c.failures + n := by
  intro n
  induction n with
  | zero => simp
  | succ k ih =>
    rw [Function.iterate_succ_apply']
    simp only [Conn.onBindFailure, ih]
    omega

theorem runThrower_append (k : Nat) :
    ∀ (xs ys : List SinkResult) (item : QItem),
      runThrower k item (xs ++ ys) = runThrower k (runThrower k item xs) ys := by
  intro xs
  induction xs with
  | nil => intro ys item; rfl
  | cons x xs ih =>
    intro ys item
    rw [List.cons_append, runThrower, runThrower]
    exact ih ys _

theorem runThrower_fails (k : Nat) :
    ∀ (rs : List String) (a : Nat), a + rs.length < k →
      runThrower k ⟨.pending, a⟩ (rs.map SinkResult.fail) = ⟨.pending, a + rs.length⟩ := by
  intro rs
  induction rs with
  | nil => intro a h; simp [runThrower]
  | cons r rs ih =>
    intro a h
    simp only [List.length_cons] at h ⊢
    simp only [List.map_cons]
    rw [runThrower]
    have hstep : throwerStep k ⟨.pending, a⟩ (.fail r) = ⟨.pending, a + 1⟩ := by
      simp only [throwerStep]
      rw [if_neg (by omega)]
    rw [hstep, ih (a + 1) (by omega)]
    congr 1
    omega

theorem throwerStep_dead (k : Nat) (reason : String) (n : Nat) (res : SinkResult) :
    throwerStep k ⟨.deadLettered reason, n⟩ res = ⟨.deadLettered reason, n⟩ := rfl

theorem runThrower_dead (k : Nat) (reason : String) (n : Nat) :
    ∀ rs : List SinkResult,
      runThrower k ⟨.deadLettered reason, n⟩ rs = ⟨.deadLettered reason, n⟩ := by
  intro rs
  induction rs with
  | nil => rfl
  | cons r rs ih =>
    rw [runThrower, throwerStep_dead]
    exact ih

/-! ## Claims C4 - C6 -/

/-- Claim C4: `dispatch` enqueues only when the target connector is BOUND; in
any other state (or for an unknown connector) it returns
rejected(connector-unavailable) and leaves the manager — hence every queue —
unchanged; in the spec scenario, dispatch to the STOPPED connectorA is
rejected with connector-unavailable and, after start and a successful bind
reach BOUND, the same dispatch enqueues the message. -/
theorem c4_dispatch_requires_bound :
    (∀ (mgr : CMgr) (cap : Nat) (cid : Cid) (m : Msg),
        (mgr.dispatch cap cid m).2 = .enqueued →
          (mgr.lookup cid).map Conn.state = some .bound)
    ∧ (∀ (mgr : CMgr) (cap : Nat) (cid : Cid) (m : Msg) (c : Conn),
        mgr.lookup cid = some c → c.state ≠ .bound →
          mgr.dispatch cap cid m = (mgr, .rejected "connector-unavailable"))
    ∧ (mgrA.dispatch 10 "connectorA" msgUS).2 = .rejected "connector-unavailable"
    ∧ (mgrA2.dispatch 10 "connectorA" msgUS).2 = .enqueued
    ∧ (((mgrA2.dispatch 10 "connectorA" msgUS).1.lookup "connectorA").map Conn.queue
        = some [msgUS]) := by
  refine ⟨?_, ?_, by decide, by decide, by decide⟩
  · intro mgr cap cid m h
    rw [CMgr.dispatch] at h
    cases hl : mgr.lookup cid with
    | none => rw [hl] at h; simp at h
    | some c =>
      rw [hl] at h
      by_cases hb : c.state = .bound
      · simp [hb]
      · simp [hb] at h
  · intro mgr cap cid m c hl hb
    simp [CMgr.dispatch, hl, hb]

/-- Witness for C4: the rejection branch applied to the scenario manager whose
connectorA is STOPPED. -/
theorem c4_witness :
    mgrA.dispatch 10 "connectorA" msgUS = (mgrA, .rejected "connector-unavailable") :=
  c4_dispatch_requires_bound.2.1 mgrA 10 "connectorA" msgUS Conn.fresh
    (by decide) (by decide)

/-- Claim C5: after N consecutive bind failures (N at least 1, counter starting
from 0) the connector waits exactly `min (base * 2 ^ (N - 1)) cap` — i.e. at
least `base * 2 ^ (N - 1)` capped at the configured maximum — before the next
bind attempt; a successful bind resets the consecutive-failure counter to 0,
and the next backoff after a fresh failure returns to the base delay. -/
theorem c5_exponential_backoff_reset :
    (∀ (base cap N : Nat) (c : Conn), 1 ≤ N → c.failures = 0 →
        (Conn.onBindFailure^[N] c).nextDelay base cap = min (base * 2 ^ (N - 1)) cap)
    ∧ (∀ c : Conn, c.onBindSuccess.failures = 0 ∧ c.onBindSuccess.state = .bound)
    ∧ (∀ (base cap : Nat) (c : Conn), base ≤ cap →
        c.onBindSuccess.onBindFailure.nextDelay base cap = base) := by
  refine ⟨?_, ?_, ?_⟩
  · intro base cap N c hN h0
    rw [Conn.nextDelay, backoffDelay, iterate_failures, h0]
    simp
  · intro c
    exact ⟨rfl, rfl⟩
  · intro base cap c h
    rw [Conn.nextDelay, backoffDelay]
    simp only [Conn.onBindSuccess, Conn.onBindFailure]
    simp
    omega

/-- Witness for C5: base 5, cap 1000, three consecutive failures give a delay
of 20 = 5 * 2 ^ 2; a success resets the counter and the next delay is 5. -/
theorem c5_witness :
    (Conn.onBindFailure^[3] Conn.fresh).nextDelay 5 1000 = 20
    ∧ Conn.fresh.onBindSuccess.failures = 0
    ∧ Conn.fresh.onBindSuccess.onBindFailure.nextDelay 5 1000 = 5 := by
  refine ⟨?_, ?_, ?_⟩
  · rw [c5_exponential_backoff_reset.1 5 1000 3 Conn.fresh (by decide) (by decide)]
    decide
  · exact (c5_exponential_backoff_reset.2.1 Conn.fresh).1
  · exact c5_exponential_backoff_reset.2.2 5 1000 Conn.fresh (by decide)

/-- Claim C6: with configured maximum `k` (at least 1), an item whose Sink
fails on exactly the first `k - 1` attempts and succeeds on the next reaches
DELIVERED with attempt count `k` and no dead-letter; an item whose Sink fails
on all `k` attempts transitions to DEAD_LETTERED with the last failure reason
attached and attempt count `k`, and is never attempted again: any further
outcomes leave it unchanged. -/
theorem c6_delivered_or_dead_lettered :
    ∀ (k : Nat) (reason : String) (rs : List String), 1 ≤ k →
      (runThrower k QItem.fresh
          ((List.replicate (k - 1) reason).map SinkResult.fail ++ [.ok])
        = ⟨.delivered, k⟩)
      ∧ (rs.length = k - 1 →
          runThrower k QItem.fresh (rs.map SinkResult.fail ++ [.fail reason])
            = ⟨.deadLettered reason, k⟩
          ∧ ∀ more : List SinkResult,
              runThrower k QItem.fresh ((rs.map SinkResult.fail ++ [.fail reason]) ++ more)
                = ⟨.deadLettered reason, k⟩) := by
  intro k reason rs hk
  constructor
  · rw [runThrower_append]
    have h1 := runThrower_fails k (List.replicate (k - 1) reason) 0 (by simp; omega)
    simp only [List.length_replicate, Nat.zero_add] at h1
    rw [show QItem.fresh = (⟨.pending, 0⟩ : QItem) from rfl, h1]
    rw [runThrower, runThrower]
    simp only [throwerStep]
    congr 1
    omega
  · intro hlen
    have hb1 : runThrower k QItem.fresh (rs.map SinkResult.fail ++ [.fail reason])
        = ⟨.deadLettered reason, k⟩ := by
      rw [runThrower_append]
      have h1 := runThrower_fails k rs 0 (by omega)
      simp only [Nat.zero_add] at h1
      rw [show QItem.fresh = (⟨.pending, 0⟩ : QItem) from rfl, h1]
      rw [runThrower, runThrower]
      simp only [throwerStep]
      rw [if_pos (by omega)]
      congr 1
      omega
    refine ⟨hb1, ?_⟩
    intro more
    rw [runThrower_append, hb1]
    exact runThrower_dead k reason k more

/-- Witness for C6 at the spec scenario maxAttempts = 3: two failures then a
success reach DELIVERED with 3 attempts; three failures reach DEAD_LETTERED
with the last reason. -/
theorem c6_witness :
    runThrower 3 QItem.fresh
        ((List.replicate 2 "timeout").map SinkResult.fail ++ [.ok]) = ⟨.delivered, 3⟩
    ∧ runThrower 3 QItem.fresh
        ((["errA", "errB"].map SinkResult.fail) ++ [.fail "timeout"])
      = ⟨.deadLettered "timeout", 3⟩ := by
  refine ⟨?_, ?_⟩
  · exact (c6_delivered_or_dead_lettered 3 "timeout" ["errA", "errB"] (by decide)).1
  · exact ((c6_delivered_or_dead_lettered 3 "timeout" ["errA", "errB"] (by decide)).2
      (by decide)).1

/-! ## Daemon embedding (from jasmin/bin/jasmind.py and interceptord.py) -/

/-- Option flags of jasmind (`Options.optFlags` in jasmin/bin/jasmind.py),
in source order; the parameters (config path, jCli credentials) are not read
by the claims over flags. -/
structure JOptions where
  disableSmppServer : Bool
  disableDlrThrower : Bool
  disableDeliverThrower : Bool
  disableHttpApi : Bool
  disableJcli : Bool
  enableInterceptorClient : Bool
  deriving DecidableEq

/-- Daemon state set up by the constructor: parsed options and the
components dictionary, modelled by its key list in insertion order. -/
structure JDaemon where
  options : JOptions
  components : List String
  deriving DecidableEq

/-- Embeds `JasminDaemon.__init__(self, opt)`: its body is
`self.options = options` — the module-global `options` produced by
command-line parsing — so the `opt` argument is never read; and
`self.components = {}`. -/
def JasminDaemon_init (opt : JOptions) (globalOptions : JOptions) : JDaemon :=
  { options := globalOptions, components := [] }

/-- Option parameters of interceptord (`Options` in interceptord.py). -/
structure InterceptorOptions where
  config : String
  deriving DecidableEq

/-- Interceptor daemon state set up by its constructor. -/
structure InterceptorDaemon where
  options : InterceptorOptions
  components : List String
  deriving DecidableEq

/-- Embeds `InterceptorDaemon.__init__(self, opt)`: `self.options = opt` and
`self.components = {}`. -/
def InterceptorDaemon_init (opt : InterceptorOptions) : InterceptorDaemon :=
  { options := opt, components := [] }

/-- Redis configuration fields read by `JasminDaemon.startRedisClient`. -/
structure RedisForJasminConfig where
  password : Option String
  dbid : Nat
  deriving DecidableEq

/-- Commands issued on the Redis connection after it is established. -/
inductive RedisOp where
  | auth : String → RedisOp
  | select : Nat → RedisOp
  deriving DecidableEq

/-- Embeds `JasminDaemon.startRedisClient`: after connecting, `auth` and
`select(dbid)` are issued only under `if password is not None`. -/
def startRedisClient (cfg : RedisForJasminConfig) : List RedisOp :=
  match cfg.password with
  | some p => [.auth p, .select cfg.dbid]
  | none => []

deriving instance DecidableEq for Except

/-- Whether the interceptor client's connection attempt
(`InterceptorPBProxy.connect`) fails. -/
structure StartEnv where
  interceptorConnectFails : Bool
  deriving DecidableEq

/-- Embeds `JasminDaemon.startInterceptorPBClient`: the component
'interceptor-pb-client' is stored before `connect` is attempted, so the key
is present even when the connection fails; a connection failure surfaces as
the error of the returned deferred. -/
def startInterceptorPBClient (env : StartEnv) (cs : List String) :
    List String × Option String :=
  (cs ++ ["interceptor-pb-client"],
   if env.interceptorConnectFails then some "cannot connect to interceptor" else none)

/-- Embeds `JasminDaemon.startdeliverSmThrowerService`: it stores
'deliversm-thrower', then reads `self.components['smpp-server-factory']`
(for `addSmpps`) — a KeyError when the SMPP server service never ran. -/
def startdeliverSmThrowerService (cs : List String) : Except String (List String) :=
  let cs2 := cs ++ ["deliversm-thrower"]
  if cs2.contains "smpp-server-factory" then .ok cs2
  else .error "KeyError: smpp-server-factory"

/-- Embeds `JasminDaemon.startDLRThrowerService`: it stores 'dlr-thrower',
then reads `self.components['smpp-server-factory']` (for `addSmpps`). -/
def startDLRThrowerService (cs : List String) : Except String (List String) :=
  let cs2 := cs ++ ["dlr-thrower"]
  if cs2.contains "smpp-server-factory" then .ok cs2
  else .error "KeyError: smpp-server-factory"

/-- Embeds `JasminDaemon.start`: the optional interceptor client start is
wrapped in try/except — a failure is logged and startup continues; then the
Redis client, AMQP broker, RouterPB and SMPPClientManagerPB services start
unconditionally, and the SMPP server, the two throwers, the HTTP API and
jCli start unless their disable flags are set; an uncaught exception (such
as the throwers' KeyError) aborts `start` with that error. -/
def JasminDaemon_start (opts : JOptions) (env : StartEnv) : Except String (List String) :=
  let cs0 : List String := []
  let cs1 := if opts.enableInterceptorClient then (startInterceptorPBClient env cs0).1 else cs0
  let cs2 := cs1 ++ ["rc"]
  let cs3 := cs2 ++ ["amqp-broker-factory", "amqp-broker-client"]
  let cs4 := cs3 ++ ["router-pb-factory", "router-pb-server"]
  let cs5 := cs4 ++ ["smppcm-pb-factory", "smppcm-pb-server"]
  let cs6 := if opts.disableSmppServer then cs5
             else cs5 ++ ["smpp-server-factory", "smpp-server"]
  match (if opts.disableDeliverThrower then .ok cs6 else startdeliverSmThrowerService cs6) with
  | .error e => .error e
  | .ok cs7 =>
    match (if opts.disableDlrThrower then .ok cs7 else startDLRThrowerService cs7) with
    | .error e => .error e
    | .ok cs8 =>
      let cs9 := if opts.disableHttpApi then cs8
                 else cs8 ++ ["http-api-factory", "http-api-server"]
      let cs10 := if opts.disableJcli then cs9 else cs9 ++ ["jcli-server"]
      .ok cs10

/-- Default-like option set with the interceptor client enabled. -/
def optsInterceptor : JOptions :=
  { disableSmppServer := false, disableDlrThrower := false,
    disableDeliverThrower := false, disableHttpApi := false,
    disableJcli := false, enableInterceptorClient := true }

/-! ## Claims C7 - C10 -/

/-- Claim C7: during `JasminDaemon.start` a failure to connect the optional
interceptor client is caught (and logged) and startup continues with the
remaining services: for any flag set with the SMPP server enabled, `start`
under a failing interceptor connection succeeds and yields exactly the same
components as under a successful connection. -/
theorem c7_interceptor_failure_caught :
    ∀ opts : JOptions, opts.disableSmppServer = false →
      JasminDaemon_start opts ⟨true⟩ = JasminDaemon_start opts ⟨false⟩
      ∧ (JasminDaemon_start opts ⟨true⟩).isOk = true := by
  intro opts
  obtain ⟨ds, ddlr, ddt, dh, dj, ei⟩ := opts
  revert ds ddlr ddt dh dj ei
  decide

/-- Witness for C7: the interceptor-enabled option set with a failing
interceptor connection. -/
theorem c7_witness :
    JasminDaemon_start optsInterceptor ⟨true⟩ = JasminDaemon_start optsInterceptor ⟨false⟩
    ∧ (JasminDaemon_start optsInterceptor ⟨true⟩).isOk = true :=
  c7_interceptor_failure_caught optsInterceptor (by decide)

/-- Claim C8: with --disable-smpp-server set and at least one of the two
throwers not disabled, `JasminDaemon.start` fails with the KeyError raised by
reading components['smpp-server-factory'], a key only
`startSMPPServerService` creates. -/
theorem c8_throwers_require_smpp_server :
    ∀ (opts : JOptions) (env : StartEnv), opts.disableSmppServer = true →
      (opts.disableDeliverThrower = false ∨ opts.disableDlrThrower = false) →
      JasminDaemon_start opts env = .error "KeyError: smpp-server-factory" := by
  intro opts env
  obtain ⟨ds, ddlr, ddt, dh, dj, ei⟩ := opts
  obtain ⟨ef⟩ := env
  revert ds ddlr ddt dh dj ei ef
  decide

/-- Witness for C8: all services at their defaults except the SMPP server,
which is disabled. -/
theorem c8_witness :
    JasminDaemon_start ⟨true, false, false, false, false, false⟩ ⟨false⟩
      = .error "KeyError: smpp-server-factory" :=
  c8_throwers_require_smpp_server ⟨true, false, false, false, false, false⟩ ⟨false⟩
    (by decide) (Or.inl (by decide))

/-- Claim C9: `JasminDaemon.__init__(opt)` ignores its argument and binds
self.options to the module-global `options`, so the constructor argument has
no effect on the daemon state; `InterceptorDaemon.__init__(opt)` by contrast
binds self.options to its `opt` argument. -/
theorem c9_jasmind_init_ignores_argument :
    (∀ opt g : JOptions, (JasminDaemon_init opt g).options = g)
    ∧ (∀ o₁ o₂ g : JOptions, JasminDaemon_init o₁ g = JasminDaemon_init o₂ g)
    ∧ (∀ opt : InterceptorOptions, (InterceptorDaemon_init opt).options = opt) :=
  ⟨fun _ _ => rfl, fun _ _ _ => rfl, fun _ => rfl⟩

/-- Claim C10: `startRedisClient` issues auth then select(dbid) exactly when
the configured password is present; with no password neither auth nor select
is issued, so the connection stays on the server's default database whatever
the configured dbid. -/
theorem c10_redis_auth_select_only_with_password :
    (∀ cfg : RedisForJasminConfig, cfg.password = none → startRedisClient cfg = [])
    ∧ (∀ (cfg : RedisForJasminConfig) (p : String), cfg.password = some p →
        startRedisClient cfg = [.auth p, .select cfg.dbid])
    ∧ (∀ d₁ d₂ : Nat, startRedisClient ⟨none, d₁⟩ = startRedisClient ⟨none, d₂⟩) := by
  refine ⟨?_, ?_, ?_⟩
  · intro cfg h
    rw [startRedisClient, h]
  · intro cfg p h
    rw [startRedisClient, h]
  · intro d₁ d₂
    rfl

/-- Witness for C10 at a concrete configuration with dbid 7. -/
theorem c10_witness :
    startRedisClient ⟨none, 7⟩ = []
    ∧ startRedisClient ⟨some "secret", 7⟩ = [.auth "secret", .select 7] :=
  ⟨c10_redis_auth_select_only_with_password.1 ⟨none, 7⟩ rfl,
   c10_redis_auth_select_only_with_password.2.1 ⟨some "secret", 7⟩ "secret" rfl⟩

end Jasmin
